import Mathlib

set_option maxRecDepth 20000

/-!
Verification of the template-driven text-extraction program
`analyzeIPRoute.py` (NPL challenge, May 2019).

The program builds a textfsm template (embedded verbatim in
`build_iproute_template`, src lines 66-118), runs the textfsm engine over a
`show ip route` dump, and summarizes the produced records in `main`
(src lines 156-180).

The extraction engine and the template compiler live in the external
`textfsm` library and are therefore modelled from the specification
("Modelled from the spec" definitions below); the embedded template and the
record summary are translated directly from the source.
-/

namespace IPRoute

/-!  ### Regular-expression fragments

Modelled from the spec: a rule's `lineExpression` is "a regular expression
built by substituting each `${name}` token with that value's pattern,
anchored to match against one input line"; named captured groups populate
the value table.  The AST below covers exactly the regex constructs used by
the embedded template's patterns (character classes, literals, alternation,
greedy `*`/`+`/`{m,n}` repetition, named groups).  Matching is anchored at
the start of the line and returns candidate (rest-of-input, captures)
pairs in backtracking priority order: leftmost-greedy first, so the head of
the result list is the match a Python `re.match` would produce.
-/

inductive RE where
  | eps : RE
  | cls : (Char → Bool) → RE
  | cat : RE → RE → RE
  | alt : RE → RE → RE
  | star : RE → RE
  | group : String → RE → RE

def reSize : RE → Nat
  | .eps => 1
  | .cls _ => 1
  | .cat a b => reSize a + reSize b + 1
  | .alt a b => reSize a + reSize b + 1
  | .star r => reSize r + 1
  | .group _ r => reSize r + 1

/-- A list of (group name, captured text) pairs, in capture order. -/
abbrev Caps := List (String × String)

/-- The text consumed between suffix `s'` and the original input `s`. -/
def capString (s s' : List Char) : String :=
  String.mk (s.take (s.length - s'.length))

/-- Modelled from the spec: anchored backtracking matcher.  Results are
(remaining input, captures) pairs in priority order; greedy constructs put
longer matches first, alternation puts the left branch first.  The fuel
argument only bounds recursion depth; `fuelFor` below always provides
enough for a complete search. -/
def mrun : Nat → RE → List Char → List (List Char × Caps)
  | 0, _, _ => []
  | _ + 1, .eps, s => [(s, [])]
  | _ + 1, .cls _, [] => []
  | _ + 1, .cls p, c :: s => if p c then [(s, [])] else []
  | fuel + 1, .cat a b, s =>
      (mrun fuel a s).flatMap fun pa =>
        (mrun fuel b pa.1).map fun pb => (pb.1, pa.2 ++ pb.2)
  | fuel + 1, .alt a b, s => mrun fuel a s ++ mrun fuel b s
  | fuel + 1, .star r, s =>
      ((mrun fuel r s).filter fun pa => pa.1.length < s.length).flatMap
        (fun pa => (mrun fuel (.star r) pa.1).map fun pb => (pb.1, pa.2 ++ pb.2))
      ++ [(s, [])]
  | fuel + 1, .group n r, s =>
      (mrun fuel r s).map fun pa => (pa.1, pa.2 ++ [(n, capString s pa.1)])

/-- Enough fuel for a complete backtracking search of `r` against `s`. -/
def fuelFor (r : RE) (s : List Char) : Nat := (reSize r + 1) * (s.length + 1)

/-- Modelled from the spec: a rule's line expression matches a line when the
anchored search succeeds; the first (leftmost-greedy) solution's captures
are the ones copied into the value table. -/
def ruleMatch (r : RE) (line : String) : Option Caps :=
  ((mrun (fuelFor r line.data) r line.data).head?).map Prod.snd

/-! ### Character classes used by the template (Python `re` semantics,
ASCII input). -/

def isWordChar (c : Char) : Bool := c.isAlphanum || c = '_'

def isDigitChar (c : Char) : Bool := c.isDigit

def isSpaceChar (c : Char) : Bool :=
  c = ' ' || c = '\t' || c = '\n' || c = '\x0b' || c = '\x0c' || c = '\r'

def isAnyChar (c : Char) : Bool := c ≠ '\n'

def isUpperChar (c : Char) : Bool := c.isUpper

def isIfChar (c : Char) : Bool :=
  isWordChar c || c = '-' || c = '.' || c = ':' || c = '/'

def isUptimeChar (c : Char) : Bool := isWordChar c || c = ':' || c = '.'

/-! ### Regex builders. -/

def rchar (c : Char) : RE := .cls fun x => x = c

def reSeq (l : List RE) : RE := l.foldr RE.cat RE.eps

def rstr (s : String) : RE := reSeq (s.data.map rchar)

/-- Greedy `r?`. -/
def rOpt (r : RE) : RE := .alt r .eps

/-- Greedy `r+`. -/
def rPlus (r : RE) : RE := .cat r (.star r)

def reW : RE := .cls isWordChar

def reD : RE := .cls isDigitChar

def reS : RE := .cls isSpaceChar

def reAny : RE := .cls isAnyChar

/-- Greedy `\d{1,3}`. -/
def d13 : RE := .cat reD (rOpt (.cat reD (rOpt reD)))

/-- The value pattern `(\d{1,3}.\d{1,3}.\d{1,3}.\d{1,3})` from src lines
69 and 73 — note the unescaped dots, which are the any-character class. -/
def ipLike : RE := reSeq [d13, reAny, d13, reAny, d13, reAny, d13]

/-! ### Value patterns of the embedded template (src lines 67-75), with
their `${NAME}` substitution targets as named groups. -/

def pPROTOCOL : RE := .group "PROTOCOL" reW

def pTYPE : RE := .group "TYPE" (rOpt (.cat reW (rOpt reW)))

def pNETWORK : RE := .group "NETWORK" ipLike

def pMASK : RE := .group "MASK" (.cat reD (rOpt reD))

def pDISTANCE : RE := .group "DISTANCE" (rPlus reD)

def pMETRIC : RE := .group "METRIC" (rPlus reD)

def pNEXTHOP_IP : RE := .group "NEXTHOP_IP" ipLike

def pNEXTHOP_IF : RE := .group "NEXTHOP_IF" (.cat (.cls isUpperChar) (rPlus (.cls isIfChar)))

def pUPTIME : RE := .group "UPTIME" (.cat reD (rPlus (.cls isUptimeChar)))

/-- The unnamed group `(\s|\*)` appearing after `${PROTOCOL}`. -/
def sorb : RE := .alt reS (rchar '*')

/-! ### Engine data model.

Modelled from the spec: value declarations carry the `Required` and
`Filldown` option flags (the `List` option is not exercised by this
program); declaration order defines the output column order. -/

structure ValueDef where
  name : String
  required : Bool
  filldown : Bool
deriving DecidableEq

inductive Action where
  | record : Action
  | clear : Action
  | clearall : Action
  | next : Action
deriving DecidableEq

structure Rule where
  re : RE
  action : Action
  target : Option String

structure Template where
  values : List ValueDef
  states : List (String × List Rule)

/-- Modelled from the spec: the ValueTable maps each declared value, in
declaration order, to its current captured string or unset. -/
abbrev VTable := List (ValueDef × Option String)

structure EngState where
  table : VTable
  curState : String
  records : List (List String)
deriving DecidableEq

/-- Set the named value's current string, leaving the declarations and
their order untouched. -/
def setVal (t : VTable) (n : String) (s : String) : VTable :=
  t.map fun e => if e.1.name = n then (e.1, some s) else e

/-- Copy the named captured groups of a match into the table, overwriting
previous values for those names. -/
def applyCaps (t : VTable) (caps : Caps) : VTable :=
  caps.foldl (fun acc p => setVal acc p.1 p.2) t

/-- Reset all non-Filldown values to unset (Record/Clear reset). -/
def clearVals (t : VTable) : VTable :=
  t.map fun e => if e.1.filldown then e else (e.1, none)

/-- Reset all values, Filldown included (Clearall). -/
def clearAllVals (t : VTable) : VTable :=
  t.map fun e => (e.1, none)

/-- A completed record: the declared values' current strings, in
declaration order; unset values appear as the empty string. -/
def emitRecord (t : VTable) : List String :=
  t.map fun e => e.2.getD ""

/-- Every value declared Required is currently set. -/
def requiredOk (t : VTable) : Bool :=
  t.all fun e => !e.1.required || e.2.isSome

/-- Try the state's rules in declared order; the first whose line
expression matches is the one applied. -/
def findRule : List Rule → String → Option (Rule × Caps)
  | [], _ => none
  | r :: rs, line =>
    match ruleMatch r.re line with
    | some caps => some (r, caps)
    | none => findRule rs line

def rulesOf (tmpl : Template) (st : String) : List Rule :=
  ((tmpl.states.find? fun p => p.1 = st).map Prod.snd).getD []

/-- Modelled from the spec: applying a matched rule copies the captures,
performs the action's emission and reset, then takes the transition. -/
def applyRule (es : EngState) (r : Rule) (caps : Caps) : EngState :=
  let t1 := applyCaps es.table caps
  let st := r.target.getD es.curState
  match r.action with
  | .record =>
      { table := clearVals t1, curState := st,
        records := if requiredOk t1 then es.records ++ [emitRecord t1] else es.records }
  | .clear => { table := clearVals t1, curState := st, records := es.records }
  | .clearall => { table := clearAllVals t1, curState := st, records := es.records }
  | .next => { table := t1, curState := st, records := es.records }

/-- Modelled from the spec: process one input line — in the terminal `EOF`
state nothing happens; otherwise the first matching rule of the current
state is applied, and a line matching no rule is silently skipped. -/
def stepLine (tmpl : Template) (es : EngState) (line : String) : EngState :=
  if es.curState = "EOF" then es
  else
    match findRule (rulesOf tmpl es.curState) line with
    | none => es
    | some (r, caps) => applyRule es r caps

def runFrom (tmpl : Template) (es : EngState) (lines : List String) : EngState :=
  lines.foldl (stepLine tmpl) es

def initState (tmpl : Template) (st : String) : EngState :=
  ⟨tmpl.values.map fun v => (v, none), st, []⟩

/-- Run the engine from the `Start` state over the input lines and return
the emitted records. -/
def parseText (tmpl : Template) (lines : List String) : List (List String) :=
  (runFrom tmpl (initState tmpl "Start") lines).records

/-! ### The embedded template (src lines 66-118)

Value declarations, src lines 67-75.  `Filldown` is set on PROTOCOL, TYPE,
NETWORK and MASK; `Required` only on NETWORK. -/

def vPROTOCOL : ValueDef := ⟨"PROTOCOL", false, true⟩

def vTYPE : ValueDef := ⟨"TYPE", false, true⟩

def vNETWORK : ValueDef := ⟨"NETWORK", true, true⟩

def vMASK : ValueDef := ⟨"MASK", false, true⟩

def vDISTANCE : ValueDef := ⟨"DISTANCE", false, false⟩

def vMETRIC : ValueDef := ⟨"METRIC", false, false⟩

def vNEXTHOP_IP : ValueDef := ⟨"NEXTHOP_IP", false, false⟩

def vNEXTHOP_IF : ValueDef := ⟨"NEXTHOP_IF", false, false⟩

def vUPTIME : ValueDef := ⟨"UPTIME", false, false⟩

def iprouteValues : List ValueDef :=
  [vPROTOCOL, vTYPE, vNETWORK, vMASK, vDISTANCE, vMETRIC,
   vNEXTHOP_IP, vNEXTHOP_IF, vUPTIME]

/-- Src line 78: `^Gateway.* -> Routes`. -/
def startRule1 : Rule :=
  ⟨reSeq [rstr "Gateway", .star reAny], .next, some "Routes"⟩

/-- Src line 82: `^\s+\d{1,3}.\d{1,3}.\d{1,3}.\d{1,3}\/${MASK}\sis -> Clear`. -/
def routesRule1 : Rule :=
  ⟨reSeq [rPlus reS, ipLike, rchar '/', pMASK, reS, rstr "is"], .clear, none⟩

/-- Src line 85:
`^${PROTOCOL}(\s|\*)${TYPE}\s+${NETWORK}\/${MASK}\sis\sdirectly\sconnected,\s${NEXTHOP_IF} -> Record`. -/
def routesRule2 : Rule :=
  ⟨reSeq [pPROTOCOL, sorb, pTYPE, rPlus reS, pNETWORK, rchar '/', pMASK,
          reS, rstr "is", reS, rstr "directly", reS, rstr "connected,", reS,
          pNEXTHOP_IF], .record, none⟩

/-- Src line 88:
`^${PROTOCOL}(\s|\*)${TYPE}\s+${NETWORK}\sis\sdirectly\sconnected,\s${NEXTHOP_IF} -> Record`. -/
def routesRule3 : Rule :=
  ⟨reSeq [pPROTOCOL, sorb, pTYPE, rPlus reS, pNETWORK,
          reS, rstr "is", reS, rstr "directly", reS, rstr "connected,", reS,
          pNEXTHOP_IF], .record, none⟩

/-- Src line 91:
`^${PROTOCOL}(\s|\*)${TYPE}\s+${NETWORK}\/${MASK}\s\[${DISTANCE}/${METRIC}\]\svia\s${NEXTHOP_IP}(,\s${UPTIME})?(,\s${NEXTHOP_IF})? -> Record`. -/
def routesRule4 : Rule :=
  ⟨reSeq [pPROTOCOL, sorb, pTYPE, rPlus reS, pNETWORK, rchar '/', pMASK,
          reS, rchar '[', pDISTANCE, rchar '/', pMETRIC, rchar ']',
          reS, rstr "via", reS, pNEXTHOP_IP,
          rOpt (reSeq [rchar ',', reS, pUPTIME]),
          rOpt (reSeq [rchar ',', reS, pNEXTHOP_IF])], .record, none⟩

/-- Src line 94:
`^${PROTOCOL}(\s|\*)${TYPE}\s+${NETWORK}\s\[${DISTANCE}\/${METRIC}\]\svia\s${NEXTHOP_IP}(,\s${UPTIME})?(,\s${NEXTHOP_IF})? -> Record`. -/
def routesRule5 : Rule :=
  ⟨reSeq [pPROTOCOL, sorb, pTYPE, rPlus reS, pNETWORK,
          reS, rchar '[', pDISTANCE, rchar '/', pMETRIC, rchar ']',
          reS, rstr "via", reS, pNEXTHOP_IP,
          rOpt (reSeq [rchar ',', reS, pUPTIME]),
          rOpt (reSeq [rchar ',', reS, pNEXTHOP_IF])], .record, none⟩

/-- Src line 97:
`^${PROTOCOL}(\s|\*)${TYPE}\s+${NETWORK}\/${MASK}\s\[${DISTANCE}/${METRIC}\],\s${UPTIME},\s${NEXTHOP_IF} -> Record`. -/
def routesRule6 : Rule :=
  ⟨reSeq [pPROTOCOL, sorb, pTYPE, rPlus reS, pNETWORK, rchar '/', pMASK,
          reS, rchar '[', pDISTANCE, rchar '/', pMETRIC, rchar ']',
          rchar ',', reS, pUPTIME, rchar ',', reS, pNEXTHOP_IF], .record, none⟩

/-- Src line 100:
`^${PROTOCOL}(\s|\*)${TYPE}\s+${NETWORK}\/${MASK}\sis\sa\ssummary,\s${UPTIME},\s${NEXTHOP_IF} -> Record`. -/
def routesRule7 : Rule :=
  ⟨reSeq [pPROTOCOL, sorb, pTYPE, rPlus reS, pNETWORK, rchar '/', pMASK,
          reS, rstr "is", reS, rstr "a", reS, rstr "summary,", reS,
          pUPTIME, rchar ',', reS, pNEXTHOP_IF], .record, none⟩

/-- Src line 103: `^${PROTOCOL}(\s|\*)${TYPE}\s+${NETWORK}\/${MASK} -> Next`. -/
def routesRule8 : Rule :=
  ⟨reSeq [pPROTOCOL, sorb, pTYPE, rPlus reS, pNETWORK, rchar '/', pMASK], .next, none⟩

/-- Src line 106: `^${PROTOCOL}(\s|\*)${TYPE}\s+${NETWORK} -> Next`. -/
def routesRule9 : Rule :=
  ⟨reSeq [pPROTOCOL, sorb, pTYPE, rPlus reS, pNETWORK], .next, none⟩

/-- Src line 109:
`^\s+\[${DISTANCE}\/${METRIC}\]\svia\s${NEXTHOP_IP}(,\s${UPTIME})?(,\s${NEXTHOP_IF})? -> Record`. -/
def routesRule10 : Rule :=
  ⟨reSeq [rPlus reS, rchar '[', pDISTANCE, rchar '/', pMETRIC, rchar ']',
          reS, rstr "via", reS, pNEXTHOP_IP,
          rOpt (reSeq [rchar ',', reS, pUPTIME]),
          rOpt (reSeq [rchar ',', reS, pNEXTHOP_IF])], .record, none⟩

/-- Src line 112: `^\s+\[${DISTANCE}\/${METRIC}\]\svia\s${NEXTHOP_IP} -> Record`. -/
def routesRule11 : Rule :=
  ⟨reSeq [rPlus reS, rchar '[', pDISTANCE, rchar '/', pMETRIC, rchar ']',
          reS, rstr "via", reS, pNEXTHOP_IP], .record, none⟩

/-- Src line 115: `^\s* -> Clearall`. -/
def routesRule12 : Rule := ⟨.star reS, .clearall, none⟩

def routesRules : List Rule :=
  [routesRule1, routesRule2, routesRule3, routesRule4, routesRule5,
   routesRule6, routesRule7, routesRule8, routesRule9, routesRule10,
   routesRule11, routesRule12]

/-- The embedded `cisco_ios_show_ip_route.template` as a compiled template:
values src lines 67-75, states `Start` (line 77), `Routes` (line 80) and
the empty terminal `EOF` (line 117). -/
def iprouteTemplate : Template :=
  ⟨iprouteValues,
   [("Start", [startRule1]), ("Routes", routesRules), ("EOF", [])]⟩

/-! ### Record summary (src `main`, lines 156-180)

`main` collects the distinct `(PROTOCOL, NETWORK, MASK)` triples — fields
0, 2 and 3 of each record — into a set and prints, for each of the five
fixed protocol codes, the number of set elements whose first component is
that code. -/

/-- Src line 159: the key `(eachItem[0], eachItem[2], eachItem[3])`. -/
def routeKey (r : List String) : String × String × String :=
  (r.getD 0 "", r.getD 2 "", r.getD 3 "")

/-- Src lines 157-159: the set `uniqueRoutes`. -/
def uniqueRoutes (routeInfo : List (List String)) :
    Finset (String × String × String) :=
  (routeInfo.map routeKey).toFinset

/-- Src lines 176-180: `len([x for x in uniqueRoutes if x[0] == code])`. -/
def protocolCount (routeInfo : List (List String)) (code : String) : Nat :=
  ((uniqueRoutes routeInfo).filter fun x => x.1 = code).card

/-- The five printed category counts of src lines 176-180, in print
order: connected (C), EIGRP (D), Local (L), OSPF (O), static (S). -/
def summaryCounts (routeInfo : List (List String)) : List (String × Nat) :=
  [("C", protocolCount routeInfo "C"),
   ("D", protocolCount routeInfo "D"),
   ("L", protocolCount routeInfo "L"),
   ("O", protocolCount routeInfo "O"),
   ("S", protocolCount routeInfo "S")]

/-! ### Template compiler (textual front end)

Modelled from the spec: `compile(templateText) -> CompiledTemplate |
CompileError`.  `Value <options> NAME (pattern)` lines become value
declarations (`MalformedValueDeclaration` on a duplicate name or an
invalid pattern — pattern validity is modelled shallowly as balanced
parentheses); a bare identifier line starts a state; indented lines
beginning with `^` are its rules, whose `$\x7bNAME\x7d` references must be
declared (`UndefinedValueReference` otherwise); comment and blank lines
are ignored; finally a state literally named `Start` is required
(`MissingStartState` otherwise). -/

inductive CompileErr where
  | malformedValueDeclaration : CompileErr
  | undefinedValueReference : CompileErr
  | missingStartState : CompileErr
deriving DecidableEq

structure TValue where
  name : String
  options : List String
  pattern : String
deriving DecidableEq

structure TTemplate where
  values : List TValue
  states : List (String × List String)
deriving DecidableEq

def lstripStr (s : String) : String :=
  String.mk (s.data.dropWhile isSpaceChar)

def stripNL (s : String) : String :=
  String.mk (s.data.filter fun c => c ≠ '\n')

/-- Split a character list at every character satisfying `sep`, dropping
empty pieces. -/
def splitDrop (sep : Char → Bool) : List Char → List Char → List String
  | [], cur => if cur.isEmpty then [] else [String.mk cur.reverse]
  | c :: rest, cur =>
      if sep c then
        if cur.isEmpty then splitDrop sep rest []
        else String.mk cur.reverse :: splitDrop sep rest []
      else splitDrop sep rest (c :: cur)

/-- The whitespace-separated tokens of a line. -/
def wordsOf (s : String) : List String := splitDrop (fun c => c = ' ') s.data []

/-- The comma-separated pieces of an option list. -/
def commasOf (s : String) : List String := splitDrop (fun c => c = ',') s.data []

def strHasPre (p s : String) : Bool := p.data.isPrefixOf s.data

/-- Blank and comment lines are ignored by the compiler. -/
def isIgnoredLine (s : String) : Bool :=
  lstripStr s = "" || strHasPre "#" (lstripStr s)

/-- Shallow validity check for a value pattern: a parenthesized fragment
with balanced parentheses. -/
def parenBalanced : List Char → Nat → Bool
  | [], n => n == 0
  | '(' :: rest, n => parenBalanced rest (n + 1)
  | ')' :: rest, n => n != 0 && parenBalanced rest (n - 1)
  | _ :: rest, n => parenBalanced rest n

def isValidPattern (p : String) : Bool :=
  strHasPre "(" p && p.data.getLast? == some ')' && parenBalanced p.data 0

/-- Parse the whitespace-separated tokens after `Value`: either
`NAME (pattern)` or `OPTIONS NAME (pattern)` with comma-separated
options. -/
def parseValueTokens : List String → Option TValue
  | [name, pat] => some ⟨name, [], pat⟩
  | [opts, name, pat] => some ⟨name, commasOf opts, pat⟩
  | _ => none

/-- The value names referenced as `$\x7bNAME\x7d` inside a raw rule pattern. -/
def refsOf : List Char → List String
  | [] => []
  | '$' :: '\x7b' :: rest =>
      String.mk (rest.takeWhile fun c => c ≠ '\x7d') :: refsOf rest
  | _ :: rest => refsOf rest

structure CompAcc where
  values : List TValue
  states : List (String × List String)
  err : Option CompileErr

/-- One compiler step per (non-ignored) template line.  The first error
encountered is kept.  States are accumulated in reverse, the current
state's rules first. -/
def compStep (acc : CompAcc) (line : String) : CompAcc :=
  if acc.err.isSome then acc
  else if strHasPre "Value " line then
    match parseValueTokens (wordsOf line).tail with
    | none => { acc with err := some .malformedValueDeclaration }
    | some v =>
      if acc.values.any (fun w => w.name = v.name) || !isValidPattern v.pattern then
        { acc with err := some .malformedValueDeclaration }
      else { acc with values := acc.values ++ [v] }
  else if strHasPre " " line || strHasPre "\t" line then
    if strHasPre "^" (lstripStr line) then
      if (refsOf line.data).all (fun n => acc.values.any fun w => w.name = n) then
        match acc.states with
        | [] => acc
        | (st, rules) :: olds => { acc with states := (st, rules ++ [lstripStr line]) :: olds }
      else { acc with err := some .undefinedValueReference }
    else acc
  else
    { acc with states := (line, []) :: acc.states }

def compAcc (lines : List String) : CompAcc :=
  ((lines.map stripNL).filter fun l => !isIgnoredLine l).foldl compStep ⟨[], [], none⟩

/-- Modelled from the spec: compile the template text; fatal errors are
surfaced before any input line is processed and carry no partial result. -/
def compile (lines : List String) : Except CompileErr TTemplate :=
  let acc := compAcc lines
  match acc.err with
  | some e => .error e
  | none =>
    if acc.states.any (fun p => p.1 = "Start") then
      .ok ⟨acc.values, acc.states.reverse⟩
    else .error .missingStartState

/-- The embedded template text, verbatim from `build_iproute_template`
(src lines 66-118, the `fileContents` list). -/
def iprouteTemplateLines : List String :=
  ["Value Filldown PROTOCOL (\\w)\n",
   "Value Filldown TYPE (\\w\x7b0,2\x7d)\n",
   "Value Required,Filldown NETWORK (\\d\x7b1,3\x7d.\\d\x7b1,3\x7d.\\d\x7b1,3\x7d.\\d\x7b1,3\x7d)\n",
   "Value Filldown MASK (\\d\x7b1,2\x7d)\n",
   "Value DISTANCE (\\d+)\n",
   "Value METRIC (\\d+)\n",
   "Value NEXTHOP_IP (\\d\x7b1,3\x7d.\\d\x7b1,3\x7d.\\d\x7b1,3\x7d.\\d\x7b1,3\x7d)\n",
   "Value NEXTHOP_IF ([A-Z][\\w\\-\\.:/]+)\n",
   "Value UPTIME (\\d[\\w:\\.]+)\n",
   "\n",
   "Start\n",
   "  ^Gateway.* -> Routes\n",
   "\n",
   "Routes\n",
   "  # For \"is (variably )subnetted\" line, capture mask, clear all values.\n",
   "  ^\\s+\\d\x7b1,3\x7d.\\d\x7b1,3\x7d.\\d\x7b1,3\x7d.\\d\x7b1,3\x7d\\/$\x7bMASK\x7d\\sis -> Clear\n",
   "  #\n",
   "  # Match directly connected route with explicit mask\n",
   "  ^$\x7bPROTOCOL\x7d(\\s|\\*)$\x7bTYPE\x7d\\s+$\x7bNETWORK\x7d\\/$\x7bMASK\x7d\\sis\\sdirectly\\sconnected,\\s$\x7bNEXTHOP_IF\x7d -> Record\n",
   "  #\n",
   "  # Match directly connected route (mask is inherited from \"is subnetted\")\n",
   "  ^$\x7bPROTOCOL\x7d(\\s|\\*)$\x7bTYPE\x7d\\s+$\x7bNETWORK\x7d\\sis\\sdirectly\\sconnected,\\s$\x7bNEXTHOP_IF\x7d -> Record\n",
   "  #\n",
   "  # Match regular routes, with mask, where all data in same line\n",
   "  ^$\x7bPROTOCOL\x7d(\\s|\\*)$\x7bTYPE\x7d\\s+$\x7bNETWORK\x7d\\/$\x7bMASK\x7d\\s\\[$\x7bDISTANCE\x7d/$\x7bMETRIC\x7d\\]\\svia\\s$\x7bNEXTHOP_IP\x7d(,\\s$\x7bUPTIME\x7d)?(,\\s$\x7bNEXTHOP_IF\x7d)? -> Record\n",
   "  #\n",
   "  # Match regular route, all one line, where mask is learned from \"is subnetted\" line\n",
   "  ^$\x7bPROTOCOL\x7d(\\s|\\*)$\x7bTYPE\x7d\\s+$\x7bNETWORK\x7d\\s\\[$\x7bDISTANCE\x7d\\/$\x7bMETRIC\x7d\\]\\svia\\s$\x7bNEXTHOP_IP\x7d(,\\s$\x7bUPTIME\x7d)?(,\\s$\x7bNEXTHOP_IF\x7d)? -> Record\n",
   "  #\n",
   "  # Match route with no via statement (Null via protocol)\n",
   "  ^$\x7bPROTOCOL\x7d(\\s|\\*)$\x7bTYPE\x7d\\s+$\x7bNETWORK\x7d\\/$\x7bMASK\x7d\\s\\[$\x7bDISTANCE\x7d/$\x7bMETRIC\x7d\\],\\s$\x7bUPTIME\x7d,\\s$\x7bNEXTHOP_IF\x7d -> Record\n",
   "  #\n",
   "  # Match \"is a summary\" routes (often Null0)\n",
   "  ^$\x7bPROTOCOL\x7d(\\s|\\*)$\x7bTYPE\x7d\\s+$\x7bNETWORK\x7d\\/$\x7bMASK\x7d\\sis\\sa\\ssummary,\\s$\x7bUPTIME\x7d,\\s$\x7bNEXTHOP_IF\x7d -> Record\n",
   "  #\n",
   "  # Match regular routes where the network/mask is on the line above the rest of the route\n",
   "  ^$\x7bPROTOCOL\x7d(\\s|\\*)$\x7bTYPE\x7d\\s+$\x7bNETWORK\x7d\\/$\x7bMASK\x7d -> Next\n",
   "  #\n",
   "  # Match regular routes where the network only (mask from subnetted line) is on the line above the rest of the route\n",
   "  ^$\x7bPROTOCOL\x7d(\\s|\\*)$\x7bTYPE\x7d\\s+$\x7bNETWORK\x7d -> Next\n",
   "  #\n",
   "  # Match the rest of the route information on line below network (and possibly mask)\n",
   "  ^\\s+\\[$\x7bDISTANCE\x7d\\/$\x7bMETRIC\x7d\\]\\svia\\s$\x7bNEXTHOP_IP\x7d(,\\s$\x7bUPTIME\x7d)?(,\\s$\x7bNEXTHOP_IF\x7d)? -> Record\n",
   "  #\n",
   "  # Match load-balanced routes\n",
   "  ^\\s+\\[$\x7bDISTANCE\x7d\\/$\x7bMETRIC\x7d\\]\\svia\\s$\x7bNEXTHOP_IP\x7d -> Record\n",
   "  #\n",
   "  # Clear all variables on empty lines\n",
   "  ^\\s* -> Clearall\n",
   "\n",
   "EOF\n"]

/-! ### Value-table lookup helpers. -/

/-- The table entry (declaration and current value) of the named value. -/
def tblFind (t : VTable) (n : String) : Option (ValueDef × Option String) :=
  t.find? fun e => e.1.name = n

/-- The declaration-order position of the named value. -/
def tblIdx (t : VTable) (n : String) : Nat :=
  t.findIdx fun e => e.1.name = n

/-- Processing `line` neither applies a `Clearall` rule nor recaptures the
value named `vname`. -/
def stepSafeFor (tmpl : Template) (vname : String) (es : EngState)
    (line : String) : Bool :=
  match findRule (rulesOf tmpl es.curState) line with
  | none => true
  | some (r, caps) =>
    (r.action != Action.clearall) && caps.all fun p => p.1 != vname

/-- No step of the run applies a `Clearall` rule or recaptures `vname`. -/
def safeRun (tmpl : Template) (vname : String) : EngState → List String → Bool
  | _, [] => true
  | es, l :: ls =>
    stepSafeFor tmpl vname es l && safeRun tmpl vname (stepLine tmpl es l) ls

/-! ### Concrete scenario states used in witnesses. -/

/-- The engine started directly in the `Routes` state. -/
def routesInit : EngState := initState iprouteTemplate "Routes"

/-- The `Routes` state with `MASK` already captured as `24` (as after an
`is variably subnetted` marker line). -/
def maskSetState : EngState :=
  { routesInit with table := setVal routesInit.table "MASK" "24" }

/-! ### Structural lemmas about table operations. -/

theorem map_fst_map (g : ValueDef × Option String → ValueDef × Option String)
    (hg : ∀ e, (g e).1 = e.1) (t : VTable) :
    (t.map g).map Prod.fst = t.map Prod.fst := by
  induction t with
  | nil => rfl
  | cons e t ih => simp [ih, hg e]

theorem setVal_keep_fst (e : ValueDef × Option String) (n s : String) :
    ((if e.1.name = n then (e.1, some s) else e) : ValueDef × Option String).1 = e.1 := by
  by_cases h : e.1.name = n <;> simp [h]

theorem setVal_fst (t : VTable) (n s : String) :
    (setVal t n s).map Prod.fst = t.map Prod.fst :=
  map_fst_map _ (fun e => setVal_keep_fst e n s) t

theorem applyCaps_fst (caps : Caps) (t : VTable) :
    (applyCaps t caps).map Prod.fst = t.map Prod.fst := by
  induction caps generalizing t with
  | nil => rfl
  | cons p ps ih => simp [applyCaps, List.foldl_cons] at ih ⊢; rw [ih, setVal_fst]

theorem clearVals_fst (t : VTable) :
    (clearVals t).map Prod.fst = t.map Prod.fst := by
  apply map_fst_map
  intro e; cases h : e.1.filldown <;> simp [h]

theorem clearAllVals_fst (t : VTable) :
    (clearAllVals t).map Prod.fst = t.map Prod.fst :=
  map_fst_map (fun e => (e.1, none)) (fun _ => rfl) t

theorem clearAllVals_eq_of_fst (t u : VTable)
    (h : t.map Prod.fst = u.map Prod.fst) : clearAllVals t = clearAllVals u := by
  have ht : clearAllVals t = (t.map Prod.fst).map fun d => (d, none) := by
    simp [clearAllVals, List.map_map]
  have hu : clearAllVals u = (u.map Prod.fst).map fun d => (d, none) := by
    simp [clearAllVals, List.map_map]
  rw [ht, hu, h]

theorem stepLine_table_fst (tmpl : Template) (es : EngState) (line : String) :
    (stepLine tmpl es line).table.map Prod.fst = es.table.map Prod.fst := by
  unfold stepLine
  by_cases he : es.curState = "EOF"
  · simp [he]
  · simp only [he, if_false]
    cases hf : findRule (rulesOf tmpl es.curState) line with
    | none => rfl
    | some p =>
      obtain ⟨⟨rre, ract, rtgt⟩, caps⟩ := p
      cases ract <;>
        simp [applyRule, clearVals_fst, clearAllVals_fst, applyCaps_fst]

/-! ### Lookup under table operations. -/

theorem tblFind_map (g : ValueDef × Option String → ValueDef × Option String)
    (hg : ∀ e, (g e).1 = e.1) (t : VTable) (n : String) :
    tblFind (t.map g) n = (tblFind t n).map g := by
  induction t with
  | nil => rfl
  | cons e t ih =>
    simp only [tblFind, List.map_cons, List.find?] at ih ⊢
    rw [hg e]
    by_cases h : e.1.name = n <;> simp [h, ih]

theorem tblIdx_map (g : ValueDef × Option String → ValueDef × Option String)
    (hg : ∀ e, (g e).1 = e.1) (t : VTable) (n : String) :
    tblIdx (t.map g) n = tblIdx t n := by
  induction t with
  | nil => rfl
  | cons e t ih =>
    simp only [tblIdx, List.map_cons, List.findIdx_cons] at ih ⊢
    rw [hg e]
    by_cases h : e.1.name = n <;> simp [h, ih]

theorem tblIdx_eq_of_fst (t u : VTable) (n : String)
    (h : t.map Prod.fst = u.map Prod.fst) : tblIdx t n = tblIdx u n := by
  induction t generalizing u with
  | nil => cases u with
    | nil => rfl
    | cons f u => simp at h
  | cons e t ih =>
    cases u with
    | nil => simp at h
    | cons f u =>
      simp only [List.map_cons, List.cons.injEq] at h
      simp only [tblIdx, List.findIdx_cons] at ih ⊢
      rw [h.1]
      by_cases hn : f.1.name = n <;> simp [hn, ih u h.2]

theorem tblFind_setVal_ne (t : VTable) (n s m : String) (h : n ≠ m) :
    tblFind (setVal t n s) m = tblFind t m := by
  rw [setVal, tblFind_map _ (fun e => setVal_keep_fst e n s)]
  cases hf : tblFind t m with
  | none => rfl
  | some e =>
    have hp : e.1.name = m := by
      have := List.find?_some hf
      simpa using this
    have hne : ¬ e.1.name = n := by rw [hp]; exact fun he => h he.symm
    simp [hne]

theorem tblFind_applyCaps_ne (caps : Caps) (t : VTable) (m : String)
    (h : ∀ p ∈ caps, p.1 ≠ m) : tblFind (applyCaps t caps) m = tblFind t m := by
  induction caps generalizing t with
  | nil => rfl
  | cons p ps ih =>
    simp only [applyCaps, List.foldl_cons] at ih ⊢
    rw [ih _ fun q hq => h q (List.mem_cons_of_mem _ hq),
        tblFind_setVal_ne _ _ _ _ (h p (List.mem_cons_self _ _))]

theorem tblFind_clearVals_filldown (t : VTable) (m : String) (v : ValueDef)
    (w : Option String) (hfd : v.filldown = true)
    (h : tblFind t m = some (v, w)) :
    tblFind (clearVals t) m = some (v, w) := by
  rw [clearVals,
    tblFind_map _ (fun e => by by_cases hc : e.1.filldown <;> simp [hc]), h]
  simp [hfd]

theorem emit_getD (t : VTable) (n : String) (e : ValueDef × Option String)
    (h : tblFind t n = some e) :
    (emitRecord t).getD (tblIdx t n) "" = e.2.getD "" := by
  induction t with
  | nil => simp [tblFind] at h
  | cons f t ih =>
    by_cases hn : f.1.name = n
    · have he : f = e := by
        simp [tblFind, List.find?, hn] at h
        exact h
      subst he
      simp [tblIdx, emitRecord, List.findIdx_cons, hn]
    · have h' : tblFind t n = some e := by
        simpa [tblFind, List.find?, hn] using h
      simp only [tblIdx, emitRecord, List.findIdx_cons, hn, decide_eq_true_eq,
        if_false, List.map_cons] at ih ⊢
      simpa using ih h'

/-! ### Rule lookup and record-stream lemmas. -/

theorem findRule_cons_match (r : Rule) (rs : List Rule) (line : String)
    (caps : Caps) (h : ruleMatch r.re line = some caps) :
    findRule (r :: rs) line = some (r, caps) := by
  simp [findRule, h]

theorem findRule_append_skip (rs1 rs2 : List Rule) (line : String)
    (h : ∀ r ∈ rs1, ruleMatch r.re line = none) :
    findRule (rs1 ++ rs2) line = findRule rs2 line := by
  induction rs1 with
  | nil => rfl
  | cons a as ih =>
    have ha := h a (List.mem_cons_self _ _)
    simp only [List.cons_append, findRule, ha]
    exact ih fun r hr => h r (List.mem_cons_of_mem _ hr)

theorem findRule_last_isSome (rs : List Rule) (r : Rule) (line : String)
    (h : (ruleMatch r.re line).isSome = true) :
    (findRule (rs ++ [r]) line).isSome = true := by
  induction rs with
  | nil =>
    simp only [List.nil_append, findRule]
    cases hm : ruleMatch r.re line with
    | none => rw [hm] at h; simp at h
    | some caps => simp
  | cons a as ih =>
    simp only [List.cons_append, findRule]
    cases ruleMatch a.re line <;> simp [ih]

theorem stepLine_found (tmpl : Template) (es : EngState) (line : String)
    (r : Rule) (caps : Caps)
    (hst : es.curState ≠ "EOF")
    (hfind : findRule (rulesOf tmpl es.curState) line = some (r, caps)) :
    stepLine tmpl es line = applyRule es r caps := by
  unfold stepLine
  rw [if_neg hst, hfind]

theorem stepLine_records_extend (tmpl : Template) (es : EngState) (line : String) :
    ∃ tail, (stepLine tmpl es line).records = es.records ++ tail := by
  unfold stepLine
  by_cases he : es.curState = "EOF"
  · exact ⟨[], by simp [he]⟩
  · simp only [he, if_false]
    cases hf : findRule (rulesOf tmpl es.curState) line with
    | none => exact ⟨[], by simp⟩
    | some p =>
      obtain ⟨⟨rre, ract, rtgt⟩, caps⟩ := p
      cases ract
      · by_cases hok : requiredOk (applyCaps es.table caps) = true
        · exact ⟨[emitRecord (applyCaps es.table caps)], by simp [applyRule, hok]⟩
        · exact ⟨[], by simp [applyRule, hok]⟩
      · exact ⟨[], by simp [applyRule]⟩
      · exact ⟨[], by simp [applyRule]⟩
      · exact ⟨[], by simp [applyRule]⟩

theorem runFrom_records_extend (tmpl : Template) (es : EngState)
    (lines : List String) :
    ∃ tail, (runFrom tmpl es lines).records = es.records ++ tail := by
  induction lines generalizing es with
  | nil => exact ⟨[], by simp [runFrom]⟩
  | cons l ls ih =>
    obtain ⟨t1, h1⟩ := stepLine_records_extend tmpl es l
    obtain ⟨t2, h2⟩ := ih (stepLine tmpl es l)
    exact ⟨t1 ++ t2, by
      simp only [runFrom, List.foldl_cons] at h2 ⊢
      rw [h2, h1, List.append_assoc]⟩

theorem runFrom_append (tmpl : Template) (es : EngState) (l1 l2 : List String) :
    runFrom tmpl es (l1 ++ l2) = runFrom tmpl (runFrom tmpl es l1) l2 :=
  List.foldl_append _ _ _ _

/-! ### Filldown persistence. -/

theorem stepSafe_preserve (tmpl : Template) (vname s : String) (v : ValueDef)
    (es : EngState) (line : String)
    (hfd : v.filldown = true)
    (hset : tblFind es.table vname = some (v, some s))
    (hsafe : stepSafeFor tmpl vname es line = true) :
    tblFind (stepLine tmpl es line).table vname = some (v, some s) ∧
    ∀ rec ∈ (stepLine tmpl es line).records.drop es.records.length,
      rec.getD (tblIdx es.table vname) "" = s := by
  unfold stepLine
  by_cases he : es.curState = "EOF"
  · refine ⟨by simp [he, hset], ?_⟩
    simp [he, List.drop_length]
  · simp only [he, if_false]
    cases hf : findRule (rulesOf tmpl es.curState) line with
    | none =>
      refine ⟨hset, ?_⟩
      simp [List.drop_length]
    | some p =>
      obtain ⟨⟨rre, ract, rtgt⟩, caps⟩ := p
      unfold stepSafeFor at hsafe
      rw [hf, Bool.and_eq_true] at hsafe
      obtain ⟨ha, hc⟩ := hsafe
      have hcaps : ∀ q ∈ caps, q.1 ≠ vname := by
        intro q hq
        have := List.all_eq_true.mp hc q hq
        simpa using this
      have ht1 : tblFind (applyCaps es.table caps) vname = some (v, some s) :=
        (tblFind_applyCaps_ne caps es.table vname hcaps).trans hset
      have hidx : tblIdx (applyCaps es.table caps) vname = tblIdx es.table vname :=
        tblIdx_eq_of_fst _ _ _ (applyCaps_fst caps es.table)
      have hemit :
          (emitRecord (applyCaps es.table caps)).getD (tblIdx es.table vname) "" = s := by
        rw [← hidx]
        rw [emit_getD (applyCaps es.table caps) vname (v, some s) ht1]
        rfl
      cases ract
      · -- Record: reset keeps Filldown values; a new record carries `s`.
        refine ⟨tblFind_clearVals_filldown _ _ _ _ hfd ht1, ?_⟩
        by_cases hok : requiredOk (applyCaps es.table caps) = true
        · intro rec hrec
          simp only [applyRule, hok, if_true, List.drop_left] at hrec
          simp only [List.mem_singleton] at hrec
          rw [hrec]
          exact hemit
        · intro rec hrec
          simp [applyRule, hok, List.drop_length] at hrec
      · -- Clear: must not reset Filldown values.
        refine ⟨tblFind_clearVals_filldown _ _ _ _ hfd ht1, ?_⟩
        intro rec hrec
        simp [applyRule, List.drop_length] at hrec
      · -- Clearall is excluded by the safety hypothesis.
        simp at ha
      · -- Next: table keeps the captures, no emission.
        refine ⟨ht1, ?_⟩
        intro rec hrec
        simp [applyRule, List.drop_length] at hrec

/-! ### The claims. -/

/-- C1: once a Filldown value (such as PROTOCOL, TYPE, NETWORK, MASK of
the embedded template) holds a captured string, every line whose applied
rule is not `Clearall` and does not recapture it — in particular any
`Clear` rule and the reset following a `Record` rule — leaves the value
unchanged, and every record emitted during such a run carries that string
at the value's declaration position. -/
theorem filldown_persistence (tmpl : Template) (vname s : String)
    (v : ValueDef) (es : EngState) (lines : List String)
    (hfd : v.filldown = true)
    (hset : tblFind es.table vname = some (v, some s))
    (hsafe : safeRun tmpl vname es lines = true) :
    tblFind (runFrom tmpl es lines).table vname = some (v, some s) ∧
    ∀ rec ∈ (runFrom tmpl es lines).records.drop es.records.length,
      rec.getD (tblIdx es.table vname) "" = s := by
  induction lines generalizing es with
  | nil =>
    refine ⟨hset, ?_⟩
    simp [runFrom, List.drop_length]
  | cons l ls ih =>
    rw [safeRun, Bool.and_eq_true] at hsafe
    obtain ⟨h1, h2⟩ := hsafe
    obtain ⟨hpres, hnew⟩ := stepSafe_preserve tmpl vname s v es l hfd hset h1
    obtain ⟨ihp, ihr⟩ := ih (stepLine tmpl es l) hpres h2
    have hidx : tblIdx (stepLine tmpl es l).table vname = tblIdx es.table vname :=
      tblIdx_eq_of_fst _ _ _ (stepLine_table_fst tmpl es l)
    have hrun : runFrom tmpl es (l :: ls)
        = runFrom tmpl (stepLine tmpl es l) ls := rfl
    refine ⟨by rw [hrun]; exact ihp, ?_⟩
    intro rec hrec
    obtain ⟨new, hnewrec⟩ := stepLine_records_extend tmpl es l
    obtain ⟨tail2, htail2⟩ := runFrom_records_extend tmpl (stepLine tmpl es l) ls
    rw [hrun, htail2, hnewrec, List.append_assoc, List.drop_left] at hrec
    rcases List.mem_append.mp hrec with hmem | hmem
    · apply hnew
      rw [hnewrec, List.drop_left]
      exact hmem
    · have hr := ihr rec (by rw [htail2, List.drop_left]; exact hmem)
      rw [hidx] at hr
      exact hr

/-- Witness for C1: starting in `Routes` with Filldown `MASK` captured as
`24`, a directly-connected route line whose `Record` rule recaptures
PROTOCOL, TYPE, NETWORK and NEXTHOP_IF but not MASK leaves `MASK = 24` in
the table, and the emitted record carries `24` at MASK's position. -/
theorem filldown_persistence_witness :
    vMASK.filldown = true ∧
    tblFind maskSetState.table "MASK" = some (vMASK, some "24") ∧
    safeRun iprouteTemplate "MASK" maskSetState
      ["C        10.0.1.0 is directly connected, GigabitEthernet0/2"] = true ∧
    (tblFind (runFrom iprouteTemplate maskSetState
        ["C        10.0.1.0 is directly connected, GigabitEthernet0/2"]).table "MASK"
      = some (vMASK, some "24") ∧
     ∀ rec ∈ (runFrom iprouteTemplate maskSetState
        ["C        10.0.1.0 is directly connected, GigabitEthernet0/2"]).records.drop
          maskSetState.records.length,
       rec.getD (tblIdx maskSetState.table "MASK") "" = "24") :=
  ⟨by decide, by decide, by decide,
   filldown_persistence iprouteTemplate "MASK" "24" vMASK maskSetState
     ["C        10.0.1.0 is directly connected, GigabitEthernet0/2"]
     (by decide) (by decide) (by decide)⟩

/-- C2: when a rule with the `Record` action matches, a record is emitted
if and only if every value declared `Required` is currently set (after the
line's captures are copied in); otherwise the record is discarded silently
— the record stream is simply left unchanged, with no error. -/
theorem record_required_gate (tmpl : Template) (es : EngState) (line : String)
    (r : Rule) (caps : Caps)
    (hst : es.curState ≠ "EOF")
    (hfind : findRule (rulesOf tmpl es.curState) line = some (r, caps))
    (hact : r.action = Action.record) :
    ((stepLine tmpl es line).records =
      if requiredOk (applyCaps es.table caps) then
        es.records ++ [emitRecord (applyCaps es.table caps)]
      else es.records) ∧
    (requiredOk (applyCaps es.table caps) = true ↔
      ∀ e ∈ applyCaps es.table caps, e.1.required = true → e.2.isSome = true) := by
  constructor
  · unfold stepLine
    rw [if_neg hst, hfind]
    obtain ⟨rre, ract, rtgt⟩ := r
    have hact' : ract = Action.record := hact
    subst hact'
    simp [applyRule]
  · rw [requiredOk, List.all_eq_true]
    constructor
    · intro h e he hr
      have hh := h e he
      rw [hr] at hh
      simpa using hh
    · intro h e he
      cases hr : e.1.required
      · simp
      · simp [h e he hr]

/-- Witness for C2: in `Routes` with an empty table, the load-balanced
route continuation line matches the `Record` rule of src line 109, but the
Required value NETWORK is unset, so no record is emitted. -/
theorem record_required_gate_witness :
    routesInit.curState ≠ "EOF" ∧
    findRule (rulesOf iprouteTemplate routesInit.curState) "    [90/10] via 10.0.0.1"
      = some (routesRule10,
          [("DISTANCE", "90"), ("METRIC", "10"), ("NEXTHOP_IP", "10.0.0.1")]) ∧
    routesRule10.action = Action.record ∧
    requiredOk (applyCaps routesInit.table
      [("DISTANCE", "90"), ("METRIC", "10"), ("NEXTHOP_IP", "10.0.0.1")]) = false ∧
    ((stepLine iprouteTemplate routesInit "    [90/10] via 10.0.0.1").records =
      if requiredOk (applyCaps routesInit.table
          [("DISTANCE", "90"), ("METRIC", "10"), ("NEXTHOP_IP", "10.0.0.1")]) then
        routesInit.records ++ [emitRecord (applyCaps routesInit.table
          [("DISTANCE", "90"), ("METRIC", "10"), ("NEXTHOP_IP", "10.0.0.1")])]
      else routesInit.records) :=
  ⟨by decide, by rfl, rfl, by decide,
   (record_required_gate iprouteTemplate routesInit "    [90/10] via 10.0.0.1"
     routesRule10 [("DISTANCE", "90"), ("METRIC", "10"), ("NEXTHOP_IP", "10.0.0.1")]
     (by decide) (by rfl) rfl).1⟩

/-- C4: a line matching no rule of the current state is skipped silently —
the engine state (table, current state, records) is unchanged — so
inserting such a line into any input leaves the produced record sequence
identical. -/
theorem unmatched_line_skipped (tmpl : Template) (lines1 : List String)
    (line : String) (lines2 : List String)
    (h : findRule (rulesOf tmpl
        (runFrom tmpl (initState tmpl "Start") lines1).curState) line = none) :
    stepLine tmpl (runFrom tmpl (initState tmpl "Start") lines1) line
      = runFrom tmpl (initState tmpl "Start") lines1 ∧
    parseText tmpl (lines1 ++ line :: lines2)
      = parseText tmpl (lines1 ++ lines2) := by
  have hstep : stepLine tmpl (runFrom tmpl (initState tmpl "Start") lines1) line
      = runFrom tmpl (initState tmpl "Start") lines1 := by
    unfold stepLine
    by_cases he : (runFrom tmpl (initState tmpl "Start") lines1).curState = "EOF"
    · simp [he]
    · simp [he, h]
  refine ⟨hstep, ?_⟩
  unfold parseText
  have h1 : lines1 ++ line :: lines2 = (lines1 ++ [line]) ++ lines2 := by simp
  rw [h1, runFrom_append, runFrom_append]
  have h2 : runFrom tmpl (runFrom tmpl (initState tmpl "Start") lines1) [line]
      = runFrom tmpl (initState tmpl "Start") lines1 := hstep
  rw [h2, ← runFrom_append]

/-- Witness for C4: `hello` matches no rule of `Start`, so it is skipped
and the parse of the input with it inserted is unchanged. -/
theorem unmatched_line_skipped_witness :
    findRule (rulesOf iprouteTemplate
        (runFrom iprouteTemplate (initState iprouteTemplate "Start") []).curState)
      "hello" = none ∧
    (stepLine iprouteTemplate
        (runFrom iprouteTemplate (initState iprouteTemplate "Start") []) "hello"
      = runFrom iprouteTemplate (initState iprouteTemplate "Start") [] ∧
     parseText iprouteTemplate
        ([] ++ "hello" :: ["Gateway of last resort is not set"])
      = parseText iprouteTemplate ([] ++ ["Gateway of last resort is not set"])) :=
  ⟨by rfl,
   unmatched_line_skipped iprouteTemplate [] "hello"
     ["Gateway of last resort is not set"] (by rfl)⟩

/-- C5: the rules of the current state are tried in declared top-to-bottom
order and exactly the first whose line expression matches is applied: when
an earlier and a later rule both could match, the earlier rule's action
and transition are performed. -/
theorem first_match_wins (tmpl : Template) (es : EngState) (rs1 rs2 : List Rule)
    (r : Rule) (line : String) (caps : Caps)
    (hst : es.curState ≠ "EOF")
    (hrules : rulesOf tmpl es.curState = rs1 ++ r :: rs2)
    (hearlier : ∀ r' ∈ rs1, ruleMatch r'.re line = none)
    (hr : ruleMatch r.re line = some caps) :
    findRule (rulesOf tmpl es.curState) line = some (r, caps) ∧
    stepLine tmpl es line = applyRule es r caps := by
  have hfind : findRule (rulesOf tmpl es.curState) line = some (r, caps) := by
    rw [hrules, findRule_append_skip rs1 (r :: rs2) line hearlier,
        findRule_cons_match r rs2 line caps hr]
  refine ⟨hfind, ?_⟩
  unfold stepLine
  rw [if_neg hst, hfind]

/-- Witness for C5: the connected-route line is matched by both the
`Record` rule of src line 85 and the catch-all `Clearall` rule of src line
115; the earlier `Record` rule is the one applied. -/
theorem first_match_wins_witness :
    routesInit.curState ≠ "EOF" ∧
    rulesOf iprouteTemplate routesInit.curState
      = [routesRule1] ++ routesRule2 :: routesRules.drop 2 ∧
    ruleMatch routesRule1.re
      "C   10.0.0.0/24 is directly connected, GigabitEthernet0/1" = none ∧
    ruleMatch routesRule2.re
      "C   10.0.0.0/24 is directly connected, GigabitEthernet0/1"
      = some [("PROTOCOL", "C"), ("TYPE", ""), ("NETWORK", "10.0.0.0"),
              ("MASK", "24"), ("NEXTHOP_IF", "GigabitEthernet0/1")] ∧
    (ruleMatch routesRule12.re
      "C   10.0.0.0/24 is directly connected, GigabitEthernet0/1").isSome = true ∧
    (findRule (rulesOf iprouteTemplate routesInit.curState)
        "C   10.0.0.0/24 is directly connected, GigabitEthernet0/1"
      = some (routesRule2,
          [("PROTOCOL", "C"), ("TYPE", ""), ("NETWORK", "10.0.0.0"),
           ("MASK", "24"), ("NEXTHOP_IF", "GigabitEthernet0/1")]) ∧
     stepLine iprouteTemplate routesInit
        "C   10.0.0.0/24 is directly connected, GigabitEthernet0/1"
      = applyRule routesInit routesRule2
          [("PROTOCOL", "C"), ("TYPE", ""), ("NETWORK", "10.0.0.0"),
           ("MASK", "24"), ("NEXTHOP_IF", "GigabitEthernet0/1")]) :=
  ⟨by decide, by rfl, by rfl, by rfl, by decide,
   first_match_wins iprouteTemplate routesInit [routesRule1] (routesRules.drop 2)
     routesRule2 "C   10.0.0.0/24 is directly connected, GigabitEthernet0/1"
     [("PROTOCOL", "C"), ("TYPE", ""), ("NETWORK", "10.0.0.0"),
      ("MASK", "24"), ("NEXTHOP_IF", "GigabitEthernet0/1")]
     (by decide) (by rfl)
     (by
       intro r' hr'
       simp only [List.mem_singleton] at hr'
       subst hr'
       rfl)
     (by rfl)⟩

/-- C6: on the single line
`C   10.0.0.0/24 is directly connected, GigabitEthernet0/1` in state
`Routes`, the embedded template produces exactly one record with
PROTOCOL = C, TYPE = "" (empty), NETWORK = 10.0.0.0, MASK = 24 and
NEXTHOP_IF = GigabitEthernet0/1 (the remaining declared values unset,
hence empty); the record's positions follow declaration order. -/
theorem connected_route_single_record :
    iprouteValues.map ValueDef.name =
      ["PROTOCOL", "TYPE", "NETWORK", "MASK", "DISTANCE", "METRIC",
       "NEXTHOP_IP", "NEXTHOP_IF", "UPTIME"] ∧
    (runFrom iprouteTemplate routesInit
        ["C   10.0.0.0/24 is directly connected, GigabitEthernet0/1"]).records
      = [["C", "", "10.0.0.0", "24", "", "", "", "GigabitEthernet0/1", ""]] :=
  ⟨by decide, by decide⟩

/-- C7: the record appended by a `Record` action is the table's current
strings in declaration order (the table stays aligned with the declared
values), and once produced it is never altered: it keeps its place in the
record sequence of every continuation of the run. -/
theorem record_is_decl_order_tuple (tmpl : Template) (es : EngState)
    (line : String) (r : Rule) (caps : Caps)
    (hst : es.curState ≠ "EOF")
    (hfind : findRule (rulesOf tmpl es.curState) line = some (r, caps))
    (hact : r.action = Action.record)
    (hok : requiredOk (applyCaps es.table caps) = true)
    (halign : es.table.map Prod.fst = tmpl.values) :
    (stepLine tmpl es line).records
      = es.records ++ [emitRecord (applyCaps es.table caps)] ∧
    (applyCaps es.table caps).map Prod.fst = tmpl.values ∧
    ∀ more : List String, ∃ tail,
      (runFrom tmpl (stepLine tmpl es line) more).records
        = es.records ++ [emitRecord (applyCaps es.table caps)] ++ tail := by
  have hrec : (stepLine tmpl es line).records
      = es.records ++ [emitRecord (applyCaps es.table caps)] := by
    unfold stepLine
    rw [if_neg hst, hfind]
    obtain ⟨rre, ract, rtgt⟩ := r
    have hact' : ract = Action.record := hact
    subst hact'
    simp [applyRule, hok]
  refine ⟨hrec, (applyCaps_fst caps es.table).trans halign, ?_⟩
  intro more
  obtain ⟨tail, htail⟩ := runFrom_records_extend tmpl (stepLine tmpl es line) more
  exact ⟨tail, by rw [htail, hrec]⟩

/-- Witness for C7: the connected-route record of C6's scenario is the
declaration-order tuple of the captured values and survives unchanged at
its position after two further lines (one of them a Clearall line). -/
theorem record_is_decl_order_tuple_witness :
    routesInit.curState ≠ "EOF" ∧
    findRule (rulesOf iprouteTemplate routesInit.curState)
        "C   10.0.0.0/24 is directly connected, GigabitEthernet0/1"
      = some (routesRule2,
          [("PROTOCOL", "C"), ("TYPE", ""), ("NETWORK", "10.0.0.0"),
           ("MASK", "24"), ("NEXTHOP_IF", "GigabitEthernet0/1")]) ∧
    routesRule2.action = Action.record ∧
    requiredOk (applyCaps routesInit.table
      [("PROTOCOL", "C"), ("TYPE", ""), ("NETWORK", "10.0.0.0"),
       ("MASK", "24"), ("NEXTHOP_IF", "GigabitEthernet0/1")]) = true ∧
    routesInit.table.map Prod.fst = iprouteTemplate.values ∧
    ((stepLine iprouteTemplate routesInit
        "C   10.0.0.0/24 is directly connected, GigabitEthernet0/1").records
      = routesInit.records ++ [emitRecord (applyCaps routesInit.table
          [("PROTOCOL", "C"), ("TYPE", ""), ("NETWORK", "10.0.0.0"),
           ("MASK", "24"), ("NEXTHOP_IF", "GigabitEthernet0/1")])] ∧
     (applyCaps routesInit.table
        [("PROTOCOL", "C"), ("TYPE", ""), ("NETWORK", "10.0.0.0"),
         ("MASK", "24"), ("NEXTHOP_IF", "GigabitEthernet0/1")]).map Prod.fst
       = iprouteTemplate.values ∧
     ∀ more : List String, ∃ tail,
       (runFrom iprouteTemplate (stepLine iprouteTemplate routesInit
           "C   10.0.0.0/24 is directly connected, GigabitEthernet0/1") more).records
         = routesInit.records ++ [emitRecord (applyCaps routesInit.table
             [("PROTOCOL", "C"), ("TYPE", ""), ("NETWORK", "10.0.0.0"),
              ("MASK", "24"), ("NEXTHOP_IF", "GigabitEthernet0/1")])] ++ tail) :=
  ⟨by decide, by rfl, rfl, by decide, by decide,
   record_is_decl_order_tuple iprouteTemplate routesInit
     "C   10.0.0.0/24 is directly connected, GigabitEthernet0/1" routesRule2
     [("PROTOCOL", "C"), ("TYPE", ""), ("NETWORK", "10.0.0.0"),
      ("MASK", "24"), ("NEXTHOP_IF", "GigabitEthernet0/1")]
     (by decide) (by rfl) rfl (by decide) (by decide)⟩

/-! ### The catch-all rule of the `Routes` state (C9). -/

theorem mrun_star_ne_nil (r : RE) (s : List Char) (n : Nat) :
    mrun (n + 1) (.star r) s ≠ [] := by
  intro h
  rw [mrun] at h
  have := (List.append_eq_nil.mp h).2
  simp at this

theorem ruleMatch_star_isSome (p : Char → Bool) (line : String) :
    (ruleMatch (.star (.cls p)) line).isSome = true := by
  unfold ruleMatch
  have hpos : fuelFor (.star (.cls p)) line.data ≠ 0 :=
    Nat.pos_iff_ne_zero.mp (Nat.mul_pos (Nat.succ_pos _) (Nat.succ_pos _))
  obtain ⟨k, hk⟩ := Nat.exists_eq_succ_of_ne_zero hpos
  rw [hk]
  cases hm : mrun (k + 1) (.star (.cls p)) line.data with
  | nil => exact absurd hm (mrun_star_ne_nil _ _ _)
  | cons a l => simp

/-- C9: in the embedded template's `Routes` state every line matches some
rule, because the final rule `^\s*` (src line 115) matches any line — so
the no-rule-matches branch is unreachable there; and whenever no earlier
route pattern matches, that final rule's `Clearall` action is applied,
resetting all values, Filldown ones included. -/
theorem routes_catchall (line : String) (es : EngState)
    (hst : es.curState = "Routes") :
    (findRule (rulesOf iprouteTemplate "Routes") line).isSome = true ∧
    ((∀ r ∈ routesRules.dropLast, ruleMatch r.re line = none) →
      ∃ caps, findRule (rulesOf iprouteTemplate "Routes") line
          = some (routesRule12, caps) ∧
        stepLine iprouteTemplate es line
          = { table := es.table.map fun e => (e.1, none),
              curState := es.curState, records := es.records }) := by
  obtain ⟨tbl, st, recs⟩ := es
  have hst' : st = "Routes" := hst
  subst hst'
  have hsome : (ruleMatch routesRule12.re line).isSome = true :=
    ruleMatch_star_isSome isSpaceChar line
  have hsplit : rulesOf iprouteTemplate "Routes"
      = routesRules.dropLast ++ [routesRule12] := rfl
  constructor
  · rw [hsplit]
    exact findRule_last_isSome _ _ _ hsome
  · intro hearlier
    obtain ⟨caps, hcaps⟩ := Option.isSome_iff_exists.mp hsome
    have hfr : findRule (rulesOf iprouteTemplate "Routes") line
        = some (routesRule12, caps) := by
      rw [hsplit, findRule_append_skip _ _ _ hearlier,
          findRule_cons_match _ _ _ _ hcaps]
    refine ⟨caps, hfr, ?_⟩
    have hne : (⟨tbl, "Routes", recs⟩ : EngState).curState ≠ "EOF" := by
      intro hcon
      simp at hcon
    rw [stepLine_found iprouteTemplate _ line routesRule12 caps hne hfr]
    simp only [applyRule, routesRule12]
    refine congrArg (fun t => EngState.mk t "Routes" recs) ?_
    rw [clearAllVals_eq_of_fst _ tbl (applyCaps_fst caps tbl)]
    rfl

/-- Witness for C9: the line `!` matches none of the first eleven Routes
rules, so the catch-all `Clearall` rule applies and empties the table. -/
theorem routes_catchall_witness :
    routesInit.curState = "Routes" ∧
    (∀ r ∈ routesRules.dropLast, ruleMatch r.re "!" = none) ∧
    ((findRule (rulesOf iprouteTemplate "Routes") "!").isSome = true ∧
     ∃ caps, findRule (rulesOf iprouteTemplate "Routes") "!"
         = some (routesRule12, caps) ∧
       stepLine iprouteTemplate routesInit "!"
         = { table := routesInit.table.map fun e => (e.1, none),
             curState := routesInit.curState, records := routesInit.records }) :=
  ⟨rfl, by decide,
   (routes_catchall "!" routesInit rfl).1,
   (routes_catchall "!" routesInit rfl).2 (by decide)⟩

/-- C3: the printed summary is exactly, per protocol code in
C, D, L, O, S order, the number of distinct
(PROTOCOL, NETWORK, MASK) = (field 0, field 2, field 3) triples whose
first component is that code; consequently two records identical on that
triple but with different NEXTHOP fields count as a single route. -/
theorem summary_distinct_triples :
    (∀ routeInfo : List (List String),
      summaryCounts routeInfo
        = ["C", "D", "L", "O", "S"].map fun code =>
            (code, ((routeInfo.map routeKey).toFinset.filter
                      fun k => k.1 = code).card)) ∧
    (∀ (rs : List (List String)) (r1 r2 : List String),
      routeKey r1 = routeKey r2 →
      ∀ code, protocolCount (r1 :: r2 :: rs) code
        = protocolCount (r1 :: rs) code) := by
  constructor
  · intro routeInfo
    rfl
  · intro rs r1 r2 h code
    simp [protocolCount, uniqueRoutes, h, Finset.insert_idem]

/-- Witness for C3: a load-balanced route — two records equal on
(PROTOCOL, NETWORK, MASK) but with different NEXTHOP_IF — counts once in
every category. -/
theorem summary_distinct_triples_witness :
    routeKey ["C", "", "10.0.0.0", "24", "", "", "", "GigabitEthernet0/1", ""]
      = routeKey ["C", "", "10.0.0.0", "24", "", "", "", "GigabitEthernet0/2", ""] ∧
    ∀ code, protocolCount
        [["C", "", "10.0.0.0", "24", "", "", "", "GigabitEthernet0/1", ""],
         ["C", "", "10.0.0.0", "24", "", "", "", "GigabitEthernet0/2", ""]] code
      = protocolCount
        [["C", "", "10.0.0.0", "24", "", "", "", "GigabitEthernet0/1", ""]] code :=
  ⟨by decide, summary_distinct_triples.2 [] _ _ (by decide)⟩

/-- C8: when the parse phase succeeds but no state is literally named
`Start`, compilation returns the `MissingStartState` error (an `Except`
error carries no partial template, and no input line is ever consumed);
the embedded template compiles successfully because it declares `Start`. -/
theorem missing_start_state :
    (∀ lines : List String, (compAcc lines).err = none →
      (compAcc lines).states.any (fun p => p.1 = "Start") = false →
      compile lines = Except.error CompileErr.missingStartState) ∧
    ∃ t, compile iprouteTemplateLines = Except.ok t ∧
      "Start" ∈ t.states.map Prod.fst := by
  constructor
  · intro lines h1 h2
    simp [compile, h1, h2]
  · exact ⟨_, rfl, by decide⟩

/-- Witness for C8: a small template with a valid value declaration and a
state named `NoStart` fails with `MissingStartState`. -/
theorem missing_start_state_witness :
    (compAcc ["Value X (a)", "NoStart", "  ^abc -> Next"]).err = none ∧
    (compAcc ["Value X (a)", "NoStart", "  ^abc -> Next"]).states.any
      (fun p => p.1 = "Start") = false ∧
    compile ["Value X (a)", "NoStart", "  ^abc -> Next"]
      = Except.error CompileErr.missingStartState :=
  ⟨by decide, by decide,
   missing_start_state.1 ["Value X (a)", "NoStart", "  ^abc -> Next"]
     (by decide) (by decide)⟩

/-- C10: a record whose first field is none of C, D, L, O, S contributes
to none of the five printed counts: prepending such a record leaves the
whole printed summary unchanged. -/
theorem unknown_protocol_not_counted (rs : List (List String)) (r : List String)
    (h : (routeKey r).1 ∉ (["C", "D", "L", "O", "S"] : List String)) :
    summaryCounts (r :: rs) = summaryCounts rs := by
  have hc : ∀ code : String, code ∈ (["C", "D", "L", "O", "S"] : List String) →
      protocolCount (r :: rs) code = protocolCount rs code := by
    intro code hcode
    have hne : ¬((routeKey r).1 = code) := fun he => h (he ▸ hcode)
    simp [protocolCount, uniqueRoutes, Finset.filter_insert, hne]
  simp [summaryCounts, hc "C" (by simp), hc "D" (by simp), hc "L" (by simp),
        hc "O" (by simp), hc "S" (by simp)]

/-- Witness for C10: a record with protocol `B` changes none of the five
counts. -/
theorem unknown_protocol_not_counted_witness :
    (routeKey ["B", "", "10.0.0.0", "8", "", "", "", "Eth0", ""]).1
      ∉ (["C", "D", "L", "O", "S"] : List String) ∧
    summaryCounts
        [["B", "", "10.0.0.0", "8", "", "", "", "Eth0", ""],
         ["C", "", "1.2.3.4", "8", "", "", "", "Eth1", ""]]
      = summaryCounts [["C", "", "1.2.3.4", "8", "", "", "", "Eth1", ""]] :=
  ⟨by decide,
   unknown_protocol_not_counted [["C", "", "1.2.3.4", "8", "", "", "", "Eth1", ""]]
     ["B", "", "10.0.0.0", "8", "", "", "", "Eth0", ""] (by decide)⟩

end IPRoute
